import Mathlib

/-!
Shallow embedding of the file-to-draft processing pipeline
(`src/server/services/folderWatcher.ts`, `src/server/services/printify.ts`,
`src/server/db/init.ts`, and the API routes file).

The database tables (`products`, `logs`, `settings`), the in-memory
`processedFiles` set, the watched file system and the console are modelled as
one explicit state record.  External collaborators (file read, the image
analyzer, the Printify upload and draft calls, and the file-system rename) are
modelled by an environment record fixing each call's outcome for one run.
Timestamps are a logical clock: every SQL statement executes at the current
clock value and advances it, so `CURRENT_TIMESTAMP` is the clock at the moment
the statement runs.
-/

/-- Structured analysis returned by the analyzer collaborator
(`AnalysisResult` in `imageAnalysis.ts`). -/
structure Analysis where
  theme : String
  style : String
  title : String
  description : String
  bullets : List String
  tags : List String
  deriving Repr, DecidableEq

/-- One row of the `products` table (schema in `db/init.ts`).
Nullable columns are `Option`; `created_at` / `updated_at` are clock values. -/
structure ProductRow where
  id : Nat
  filename : String
  printify_product_id : Option String := none
  printify_image_id : Option String := none
  title : Option String := none
  description : Option String := none
  bullets : Option String := none
  tags : Option String := none
  theme : Option String := none
  style : Option String := none
  status : String
  error_message : Option String := none
  created_at : Nat
  updated_at : Nat
  deriving Repr, DecidableEq

/-- One row of the `logs` table (schema in `db/init.ts`). -/
structure LogRow where
  id : Nat
  product_id : Option Nat
  action : String
  status : String
  message : String
  created_at : Nat
  deriving Repr, DecidableEq

/-- Whole-app state: the three tables, the module-level `processedFiles` set,
the set of existing file paths, the auto-increment counters, the logical clock
and the console transcript. -/
structure AppState where
  products : List ProductRow := []
  logs : List LogRow := []
  settings : List (String × String) := []
  processedFiles : List String := []
  fsFiles : List String := []
  nextProductId : Nat := 1
  nextLogId : Nat := 1
  now : Nat := 0
  console : List String := []
  deriving Repr, DecidableEq

/-- Outcomes of the external calls a single `processImage` run can make.
`fs.readFileSync` yields the byte length or throws; `analyzeImage`,
`uploadImageToPrintify` and `createProductDraft` yield their values or throw
with a message; `fs.renameSync` succeeds or throws with a message. -/
structure Env where
  readResult : Except String Nat
  analyzeResult : Except String Analysis
  uploadResult : Except String String
  draftResult : Except String String
  renameOk : Bool
  renameErr : String
  deriving Repr

/-- Which external operations a run invoked, in order. -/
inductive ExtCall where
  | readFile
  | analyze
  | upload
  | createDraft
  | rename
  deriving Repr, DecidableEq

/-- Split a character list on a separator character (the pieces, in order,
separators dropped) — structural-recursion counterpart of `String.splitOn`
for one-character separators. -/
def splitOnChar (c : Char) : List Char → List (List Char)
  | [] => [[]]
  | a :: rest =>
    let r := splitOnChar c rest
    if a = c then [] :: r
    else
      match r with
      | h :: t => (a :: h) :: t
      | [] => [[a]]

/-- `path.basename`: the last `/`-separated component. -/
def basename (p : String) : String :=
  ⟨(splitOnChar (Char.ofNat 47) p.data).getLastD p.data⟩

/-- `path.join(dir, name)` for the two-argument uses in the source. -/
def joinPath (dir name : String) : String :=
  dir ++ "/" ++ name

/-- `path.extname`: from the last dot of the basename (inclusive), empty when
the basename has no dot or only a leading dot. -/
def extname (p : String) : String :=
  match splitOnChar (Char.ofNat 46) (basename p).data with
  | [] => ""
  | [_] => ""
  | [[], _] => ""
  | parts => ⟨(Char.ofNat 46) :: parts.getLastD []⟩

/-- `String.prototype.toLowerCase` / `String.toLower`, written with
structural recursion so that it evaluates by reduction. -/
def toLowerStr (s : String) : String := ⟨s.data.map Char.toLower⟩

/-- `VALID_EXTENSIONS` from `folderWatcher.ts`. -/
def VALID_EXTENSIONS : List String := [".png", ".jpg", ".jpeg"]

/-- `Set.add` on the module-level `processedFiles` set. -/
def addFile (n : String) (l : List String) : List String :=
  if n ∈ l then l else n :: l

/-- `console.log` / `console.error`. -/
def consoleLine (msg : String) (s : AppState) : AppState :=
  { s with console := s.console ++ [msg] }

/-- `getSetting` from `db/init.ts`: `SELECT value FROM settings WHERE key = ?`,
`null` when the row is absent. -/
def getSetting (s : AppState) (key : String) : Option String :=
  (s.settings.find? (fun kv => kv.1 == key)).map (fun kv => kv.2)

/-- `logAction` from `printify.ts`:
`INSERT INTO logs (product_id, action, status, message) VALUES (?, ?, ?, ?)`;
`created_at` defaults to `CURRENT_TIMESTAMP`. -/
def logAction (productId : Option Nat) (action status message : String)
    (s : AppState) : AppState :=
  { s with
    logs := s.logs ++ [{ id := s.nextLogId, product_id := productId,
                         action := action, status := status,
                         message := message, created_at := s.now }]
    nextLogId := s.nextLogId + 1
    now := s.now + 1 }

/-- `INSERT INTO products (filename, status) VALUES (?, 'processing')`:
the other columns take their schema defaults. Returns `lastInsertRowid`. -/
def dbInsertProduct (filename : String) (s : AppState) : Nat × AppState :=
  (s.nextProductId,
   { s with
     products := s.products ++
       [{ id := s.nextProductId, filename := filename, status := "processing",
          created_at := s.now, updated_at := s.now }]
     nextProductId := s.nextProductId + 1
     now := s.now + 1 })

/-- The `WHERE id = ?` clause of an `UPDATE`: apply `f` to the rows whose id
matches, leave the others alone. -/
def guarded (pid : Nat) (f : ProductRow → ProductRow) (p : ProductRow) :
    ProductRow :=
  if p.id = pid then f p else p

/-- The analysis `UPDATE` in `processImage`: sets `title`, `description`,
`bullets`, `tags`, `theme`, `style` and `updated_at = CURRENT_TIMESTAMP`
on the row with the given id. -/
def updateAnalysis (pid : Nat) (a : Analysis) (bulletsJson tagsJson : String)
    (s : AppState) : AppState :=
  { s with
    products := s.products.map (guarded pid (fun p =>
      { p with title := some a.title, description := some a.description,
               bullets := some bulletsJson, tags := some tagsJson,
               theme := some a.theme, style := some a.style,
               updated_at := s.now }))
    now := s.now + 1 }

/-- `UPDATE products SET printify_image_id = ?, updated_at = CURRENT_TIMESTAMP
WHERE id = ?`. -/
def updateImageId (pid : Nat) (imageId : String) (s : AppState) : AppState :=
  { s with
    products := s.products.map (guarded pid (fun p =>
      { p with printify_image_id := some imageId, updated_at := s.now }))
    now := s.now + 1 }

/-- `UPDATE products SET printify_product_id = ?, status = 'completed',
updated_at = CURRENT_TIMESTAMP WHERE id = ?`. -/
def updateCompleted (pid : Nat) (productIdStr : String) (s : AppState) :
    AppState :=
  { s with
    products := s.products.map (guarded pid (fun p =>
      { p with printify_product_id := some productIdStr,
               status := "completed", updated_at := s.now }))
    now := s.now + 1 }

/-- `UPDATE products SET status = 'error', error_message = ?,
updated_at = CURRENT_TIMESTAMP WHERE id = ?` (the catch block). -/
def updateError (pid : Nat) (msg : String) (s : AppState) : AppState :=
  { s with
    products := s.products.map (guarded pid (fun p =>
      { p with status := "error", error_message := some msg,
               updated_at := s.now }))
    now := s.now + 1 }

/-- `UPDATE products SET status = 'pending' WHERE id = ?` (retry route).
Note: this statement's SET clause names only `status`. -/
def retryResetPending (pid : Nat) (s : AppState) : AppState :=
  { s with
    products := s.products.map (guarded pid (fun p =>
      { p with status := "pending" }))
    now := s.now + 1 }

/-- `fs.renameSync(src, dst)` on the existence set of paths. -/
def fsRename (src dst : String) (files : List String) : List String :=
  dst :: files.filter (fun f => f ≠ src)

/-- `JSON.stringify` on an array of plain strings. -/
def jsonStringify (l : List String) : String :=
  "[" ++ String.intercalate "," (l.map (fun x => "\"" ++ x ++ "\"")) ++ "]"

/-- Value and effects of one `processImage` call. -/
structure ProcResult where
  success : Bool
  productId : Nat
  error : Option String
  deriving Repr, DecidableEq

/-- Return value, final state and external-call trace of a run. -/
structure RunOutcome where
  res : ProcResult
  state : AppState
  calls : List ExtCall
  deriving Repr, DecidableEq

/-- The catch block of `processImage`. -/
def failStep (fileName : String) (pid : Nat) (msg : String) (s : AppState)
    (calls : List ExtCall) : RunOutcome :=
  let s := consoleLine ("Error processing " ++ fileName ++ ": " ++ msg) s
  let s := updateError pid msg s
  let s := logAction (some pid) "error" "error" msg s
  { res := { success := false, productId := pid, error := some msg },
    state := s, calls := calls }

/-- `processImage(filePath, processedDir?)` from `folderWatcher.ts`,
with the outcomes of the external calls supplied by `env`. -/
def processImage (env : Env) (filePath : String) (processedDir : Option String)
    (s : AppState) : RunOutcome :=
  let fileName := basename filePath
  let s := { s with processedFiles := addFile fileName s.processedFiles }
  let (productId, s) := dbInsertProduct fileName s
  let s := logAction (some productId) "processing_started" "info"
    ("Started processing " ++ fileName) s
  match env.readResult with
  | .error msg => failStep fileName productId msg s [.readFile]
  | .ok byteLen =>
    let s := consoleLine ("Read image: " ++ fileName ++ " (" ++
      toString byteLen ++ " bytes)") s
    let s := logAction (some productId) "analyzing" "info"
      "Analyzing image with AI" s
    match env.analyzeResult with
    | .error msg => failStep fileName productId msg s [.readFile, .analyze]
    | .ok analysis =>
      let s := consoleLine ("Analysis complete for " ++ fileName ++ ": " ++
        analysis.title) s
      let s := updateAnalysis productId analysis
        (jsonStringify analysis.bullets) (jsonStringify analysis.tags) s
      let s := logAction (some productId) "analysis_complete" "success"
        ("Generated title: " ++ analysis.title) s
      let s := logAction (some productId) "uploading" "info"
        "Uploading image to Printify" s
      match env.uploadResult with
      | .error msg =>
        failStep fileName productId msg s [.readFile, .analyze, .upload]
      | .ok imageId =>
        let s := consoleLine ("Uploaded to Printify: " ++ imageId) s
        let s := updateImageId productId imageId s
        let s := logAction (some productId) "upload_complete" "success"
          ("Image ID: " ++ imageId) s
        let s := logAction (some productId) "creating_draft" "info"
          "Creating Printify product draft" s
        match env.draftResult with
        | .error msg =>
          failStep fileName productId msg s
            [.readFile, .analyze, .upload, .createDraft]
        | .ok draftId =>
          let s := consoleLine ("Created draft product: " ++ draftId) s
          let s := updateCompleted productId draftId s
          let s := logAction (some productId) "draft_created" "success"
            ("Product ID: " ++ draftId) s
          match processedDir with
          | some dir =>
            if env.renameOk then
              let destPath := joinPath dir fileName
              let s := { s with fsFiles := fsRename filePath destPath s.fsFiles }
              let s := consoleLine ("Moved to processed: " ++ fileName) s
              { res := { success := true, productId := productId, error := none },
                state := s,
                calls := [.readFile, .analyze, .upload, .createDraft, .rename] }
            else
              failStep fileName productId env.renameErr s
                [.readFile, .analyze, .upload, .createDraft, .rename]
          | none =>
            { res := { success := true, productId := productId, error := none },
              state := s,
              calls := [.readFile, .analyze, .upload, .createDraft] }

/-- How one watcher `add` event ended. -/
inductive WatchOutcome where
  | skippedExt
  | skippedDup
  | skippedDisabled
  | processed (r : ProcResult)
  deriving Repr, DecidableEq

/-- The startup seeding in `startFolderWatcher`:
`SELECT filename FROM products WHERE status IN ('completed', 'processing')`,
each filename added to `processedFiles`. -/
def seedProcessedFiles (s : AppState) : AppState :=
  { s with
    processedFiles :=
      ((s.products.filter (fun p =>
          p.status == "completed" || p.status == "processing")).map
        (fun p => p.filename)).foldl (fun acc n => addFile n acc)
        s.processedFiles }

/-- The watcher's `add` handler in `startFolderWatcher`: extension filter,
`processedFiles` check, `auto_process` gate, then `processImage`. -/
def onAdd (env : Env) (processedDir : String) (filePath : String)
    (s : AppState) : WatchOutcome × AppState :=
  let fileName := basename filePath
  let ext := toLowerStr (extname filePath)
  if ¬ VALID_EXTENSIONS.contains ext then
    (.skippedExt, consoleLine ("Skipping non-image file: " ++ fileName) s)
  else if fileName ∈ s.processedFiles then
    (.skippedDup, consoleLine ("Already processed: " ++ fileName) s)
  else
    let autoProcess := getSetting s "auto_process" == some "true"
    if ¬ autoProcess then
      (.skippedDisabled,
       consoleLine ("Auto-process disabled, skipping: " ++ fileName) s)
    else
      let s := consoleLine ("New image detected: " ++ fileName) s
      let o := processImage env filePath (some processedDir) s
      (.processed o.res, o.state)

/-- The watcher's `error` handler in `startFolderWatcher`:
`console.error("Watcher error:", error)` and nothing else. -/
def onWatcherError (errMsg : String) (s : AppState) : AppState :=
  consoleLine ("Watcher error: " ++ errMsg) s

/-- `DATA_ROOT/uploads` from the routes file (`process.cwd()` elided). -/
def uploadsDir : String := "data/uploads"

/-- `DATA_ROOT/processed` from the routes file. -/
def processedDirRoute : String := "data/processed"

/-- Possible responses of the retry route. -/
inductive RetryResponse where
  | notFoundProduct
  | notFoundFile
  | ok (success : Bool) (error : Option String)
  deriving Repr, DecidableEq

/-- The `POST /products/:id/retry` route: look up the product, locate its file
in the uploads or processed directory, reset `status` to `'pending'`, then
call `processImage(filePath, processedDir)`. -/
def retryProduct (env : Env) (id : Nat) (s : AppState) :
    RetryResponse × AppState :=
  match s.products.find? (fun p => p.id == id) with
  | none => (.notFoundProduct, s)
  | some product =>
    let fp0 := joinPath uploadsDir product.filename
    let filePath :=
      if fp0 ∈ s.fsFiles then fp0
      else joinPath processedDirRoute product.filename
    if filePath ∉ s.fsFiles then (.notFoundFile, s)
    else
      let s := retryResetPending id s
      let o := processImage env filePath (some processedDirRoute) s
      (.ok o.res.success o.res.error, o.state)

/-- Lookup of the Item row with a given id
(`SELECT * FROM products WHERE id = ?`). -/
def getProduct (s : AppState) (pid : Nat) : Option ProductRow :=
  s.products.find? (fun p => p.id == pid)

/-- Message of the first failing stage of a run (file read, analyze, upload,
draft creation — in the order `processImage` performs them), `none` when all
four succeed. -/
def firstFailure (env : Env) : Option String :=
  match env.readResult with
  | .error m => some m
  | .ok _ =>
    match env.analyzeResult with
    | .error m => some m
    | .ok _ =>
      match env.uploadResult with
      | .error m => some m
      | .ok _ =>
        match env.draftResult with
        | .error m => some m
        | .ok _ => none

/-- Whether a watcher event triggered a pipeline run. -/
def isProcessedOutcome : WatchOutcome → Bool
  | .processed _ => true
  | _ => false

/-- Number of pipeline runs a sequence of watcher `add` events triggers for a
given base filename. -/
def countRunsFor (env : Env) (pd : String) (fn : String) :
    List String → AppState → Nat
  | [], _ => 0
  | p :: rest, s =>
    let step := onAdd env pd p s
    (if basename p = fn ∧ isProcessedOutcome step.1 then 1 else 0) +
      countRunsFor env pd fn rest step.2

/-! ## Concrete scenarios used by witnesses and counterexamples -/

/-- Analysis the demo analyzer returns. -/
def demoAnalysis : Analysis :=
  { theme := "sunset", style := "retro", title := "Sunset Tee",
    description := "A warm sunset print", bullets := ["Soft cotton"],
    tags := ["sunset"] }

/-- Environment in which every external call succeeds. -/
def envAllOk : Env :=
  { readResult := .ok 2048, analyzeResult := .ok demoAnalysis,
    uploadResult := .ok "img_123", draftResult := .ok "prod_456",
    renameOk := true, renameErr := "" }

/-- Environment with the same remote outcomes, but the archive rename
throws. -/
def envRenameFail : Env :=
  { envAllOk with renameOk := false, renameErr := "EXDEV: cross-device link" }

/-- Environment in which the analyzer call fails (and the later calls would
fail too, were they ever made). -/
def envAnalyzeFail : Env :=
  { readResult := .ok 100, analyzeResult := .error "rate limited",
    uploadResult := .error "unreachable", draftResult := .error "unreachable",
    renameOk := true, renameErr := "" }

/-- Fresh state: auto-process on, one file waiting in the watch directory. -/
def stBase : AppState :=
  { settings := [("auto_process", "true")],
    fsFiles := ["data/uploads/design1.png"], now := 10 }

/-- Fresh state with a different waiting file. -/
def stLogo : AppState :=
  { settings := [("auto_process", "true")],
    fsFiles := ["data/uploads/logo.jpg"], now := 7 }

/-- Fresh state with auto-processing disabled. -/
def stDisabled : AppState :=
  { settings := [("auto_process", "false")],
    fsFiles := ["data/uploads/design1.png"], now := 10 }

/-- State holding one completed Item whose file sits in the processed
directory. -/
def stCompleted : AppState :=
  { products := [{ id := 1, filename := "design1.png",
                   printify_product_id := some "prod_old",
                   printify_image_id := some "img_old",
                   status := "completed", created_at := 3, updated_at := 5 }],
    settings := [("auto_process", "true")],
    fsFiles := ["data/processed/design1.png"],
    nextProductId := 2, nextLogId := 1, now := 20 }

/-! ## Helper lemmas -/

theorem map_guarded_eq_self {pid : Nat} {f : ProductRow → ProductRow}
    {l : List ProductRow} (h : ∀ p ∈ l, p.id ≠ pid) :
    l.map (guarded pid f) = l := by
  induction l with
  | nil => rfl
  | cons a t ih =>
    have ha : a.id ≠ pid := h a (List.mem_cons_self a t)
    simp only [List.map_cons, guarded, if_neg ha,
      ih (fun p hp => h p (List.mem_cons_of_mem a hp))]

theorem find_id_append {l : List ProductRow} {row : ProductRow} {pid : Nat}
    (h : ∀ p ∈ l, p.id ≠ pid) (hrow : row.id = pid) :
    (l ++ [row]).find? (fun p => p.id == pid) = some row := by
  induction l with
  | nil => simp [List.find?, hrow]
  | cons a t ih =>
    have ha : a.id ≠ pid := h a (List.mem_cons_self a t)
    have ha' : (a.id == pid) = false := by simpa using ha
    simpa [List.find?, ha'] using ih (fun p hp => h p (List.mem_cons_of_mem a hp))

theorem mem_addFile {x n : String} {l : List String} :
    x ∈ addFile n l ↔ x = n ∨ x ∈ l := by
  unfold addFile
  split
  · constructor
    · exact fun hx => Or.inr hx
    · rintro (rfl | hx)
      · assumption
      · exact hx
  · simp [List.mem_cons]

theorem self_mem_addFile {n : String} {l : List String} : n ∈ addFile n l :=
  mem_addFile.mpr (Or.inl rfl)

theorem addFile_sub {x n : String} {l : List String} (hx : x ∈ l) :
    x ∈ addFile n l :=
  mem_addFile.mpr (Or.inr hx)

theorem processImage_processedFiles (env : Env) (filePath : String)
    (pd : Option String) (s : AppState) :
    (processImage env filePath pd s).state.processedFiles =
      addFile (basename filePath) s.processedFiles := by
  unfold processImage
  rcases env with ⟨rr, ar, ur, dr, ren, rerr⟩
  cases rr <;> cases ar <;> cases ur <;> cases dr <;> cases pd <;> cases ren <;>
    simp [failStep, updateError, updateAnalysis, updateImageId, updateCompleted,
      dbInsertProduct, logAction, consoleLine]

theorem processImage_res_console (env : Env) (filePath : String)
    (pd : Option String) (s : AppState) (c : List String) :
    (processImage env filePath pd { s with console := c }).res =
      (processImage env filePath pd s).res := by
  unfold processImage
  rcases env with ⟨rr, ar, ur, dr, ren, rerr⟩
  cases rr <;> cases ar <;> cases ur <;> cases dr <;> cases pd <;> cases ren <;>
    simp [failStep, updateError, updateAnalysis, updateImageId, updateCompleted,
      dbInsertProduct, logAction, consoleLine]

theorem map_ext_on {α β : Type} {f g : α → β} :
    ∀ (l : List α), (∀ a ∈ l, f a = g a) → l.map f = l.map g := by
  intro l
  induction l with
  | nil => intro _; rfl
  | cons a t ih =>
    intro h
    simp only [List.map_cons, h a (List.mem_cons_self a t),
      ih (fun b hb => h b (List.mem_cons_of_mem a hb))]

theorem onAdd_preserves {env : Env} {pd p : String} {s : AppState}
    {fn : String} (hfn : fn ∈ s.processedFiles) :
    fn ∈ (onAdd env pd p s).2.processedFiles := by
  simp only [onAdd]
  split_ifs with h1 h2 h3 <;>
    first
      | exact hfn
      | (rw [processImage_processedFiles]; exact addFile_sub hfn)

theorem onAdd_processed_mem {env : Env} {pd p : String} {s : AppState}
    (h : isProcessedOutcome (onAdd env pd p s).1 = true) :
    basename p ∈ (onAdd env pd p s).2.processedFiles := by
  simp only [onAdd] at h ⊢
  split_ifs at h ⊢ with h1 h2 h3 <;>
    first
      | (rw [processImage_processedFiles]; exact self_mem_addFile)
      | (exfalso; simp [isProcessedOutcome] at h)

theorem onAdd_dup_not_processed {env : Env} {pd p : String} {s : AppState}
    (hdup : basename p ∈ s.processedFiles) :
    isProcessedOutcome (onAdd env pd p s).1 = false := by
  simp only [onAdd]
  split_ifs with h1 <;> rfl

theorem onAdd_skippedDup {env : Env} {pd p : String} {s : AppState}
    (hext : toLowerStr (extname p) ∈ VALID_EXTENSIONS)
    (hdup : basename p ∈ s.processedFiles) :
    (onAdd env pd p s).1 = .skippedDup := by
  simp [onAdd, hext, hdup]

theorem onAdd_enabled_run {env : Env} {pd filePath : String} {s : AppState}
    (hext : toLowerStr (extname filePath) ∈ VALID_EXTENSIONS)
    (hdup : basename filePath ∉ s.processedFiles)
    (hgate : getSetting s "auto_process" = some "true") :
    isProcessedOutcome (onAdd env pd filePath s).1 = true ∧
    basename filePath ∈ (onAdd env pd filePath s).2.processedFiles := by
  have hb : (getSetting s "auto_process" == some "true") = true := by
    simp [hgate]
  constructor
  · simp [onAdd, hext, hdup, hb, isProcessedOutcome]
  · simp [onAdd, hext, hdup, hb, processImage_processedFiles,
      self_mem_addFile]

theorem mem_foldl_addFile {n : String} :
    ∀ (ns acc : List String), n ∈ ns ∨ n ∈ acc →
      n ∈ ns.foldl (fun acc m => addFile m acc) acc := by
  intro ns
  induction ns with
  | nil =>
    intro acc h
    rcases h with h | h
    · cases h
    · exact h
  | cons m ms ih =>
    intro acc h
    simp only [List.foldl_cons]
    apply ih
    rcases h with h | h
    · rcases List.mem_cons.mp h with rfl | h2
      · exact Or.inr self_mem_addFile
      · exact Or.inl h2
    · exact Or.inr (addFile_sub h)

theorem seed_mem {s : AppState} {p : ProductRow} (hp : p ∈ s.products)
    (hst : p.status = "completed" ∨ p.status = "processing") :
    p.filename ∈ (seedProcessedFiles s).processedFiles := by
  simp only [seedProcessedFiles]
  apply mem_foldl_addFile
  left
  refine List.mem_map_of_mem _ (List.mem_filter.mpr ⟨hp, ?_⟩)
  rcases hst with h | h <;> simp [h]

theorem countRunsFor_zero {env : Env} {pd fn : String} :
    ∀ (paths : List String) (s : AppState), fn ∈ s.processedFiles →
      countRunsFor env pd fn paths s = 0 := by
  intro paths
  induction paths with
  | nil => intro s _; rfl
  | cons p rest ih =>
    intro s hfn
    simp only [countRunsFor]
    rw [ih _ (onAdd_preserves hfn)]
    rw [if_neg, Nat.add_zero]
    rintro ⟨rfl, hproc⟩
    rw [onAdd_dup_not_processed hfn] at hproc
    cases hproc

theorem countRunsFor_le_one (env : Env) (pd fn : String) :
    ∀ (paths : List String) (s : AppState),
      countRunsFor env pd fn paths s ≤ 1 := by
  intro paths
  induction paths with
  | nil => intro s; exact Nat.zero_le 1
  | cons p rest ih =>
    intro s
    simp only [countRunsFor]
    by_cases hc : basename p = fn ∧ isProcessedOutcome (onAdd env pd p s).1 =
      true
    · rw [if_pos hc, countRunsFor_zero rest _ (hc.1 ▸ onAdd_processed_mem hc.2)]
    · rw [if_neg hc, Nat.zero_add]
      exact ih _

/-! ## Claims -/

/-- C1 (counterexample to the claim as stated): an input on which the
analyze, upload and draft-creation stages all succeed (`firstFailure` is
`none`) and an archive directory is given, yet the call returns
`success = false`, the Item ends in status `error`, and the file is still at
its original path — because the rename into the archive directory fails and
is caught by the same handler. -/
theorem C1_counterexample :
    firstFailure envRenameFail = none ∧
    (processImage envRenameFail "data/uploads/design1.png"
      (some "data/processed") stBase).res.success = false ∧
    ((processImage envRenameFail "data/uploads/design1.png"
      (some "data/processed") stBase).state.products.map
        (fun p => p.status)) = ["error"] ∧
    "data/uploads/design1.png" ∈ (processImage envRenameFail
      "data/uploads/design1.png" (some "data/processed") stBase).state.fsFiles :=
  ⟨rfl, rfl, rfl, by decide⟩

/-- C1 (amended): for every run of `processImage` in which analyze, upload
and draft creation succeed, an archive directory is given, AND the rename
into the archive directory also succeeds, the call returns
`success = true` with the new product id, the created Item ends with status
`completed` and populated remote handles (equal to the handles the upload and
draft calls returned), and the source file no longer exists at its original
path but exists in the archive directory. -/
theorem C1_amended_success_run (env : Env) (filePath dir : String)
    (s : AppState) (n : Nat) (a : Analysis) (img prod : String)
    (hr : env.readResult = .ok n) (ha : env.analyzeResult = .ok a)
    (hu : env.uploadResult = .ok img) (hd : env.draftResult = .ok prod)
    (hren : env.renameOk = true)
    (hfresh : ∀ p ∈ s.products, p.id ≠ s.nextProductId)
    (hne : filePath ≠ joinPath dir (basename filePath)) :
    (processImage env filePath (some dir) s).res =
      { success := true, productId := s.nextProductId, error := none } ∧
    (∃ row, getProduct (processImage env filePath (some dir) s).state
        s.nextProductId = some row ∧
      row.status = "completed" ∧ row.printify_image_id = some img ∧
      row.printify_product_id = some prod) ∧
    filePath ∉ (processImage env filePath (some dir) s).state.fsFiles ∧
    joinPath dir (basename filePath) ∈
      (processImage env filePath (some dir) s).state.fsFiles := by
  simp only [processImage, hr, ha, hu, hd, hren]
  simp only [dbInsertProduct, logAction, consoleLine, updateAnalysis,
    updateImageId, updateCompleted, failStep, addFile, fsRename, if_true]
  refine ⟨trivial, ?_, ?_, List.mem_cons_self _ _⟩
  · rw [List.map_append, List.map_append, List.map_append,
      map_guarded_eq_self hfresh, map_guarded_eq_self hfresh,
      map_guarded_eq_self hfresh]
    simp only [List.map_cons, List.map_nil, guarded, eq_self_iff_true, if_true]
    rw [getProduct, find_id_append hfresh rfl]
    exact ⟨_, rfl, rfl, rfl, rfl⟩
  · simp [List.mem_filter, hne]

/-- C1 (witness): the amended theorem applied to the all-success environment
on a fresh state. -/
theorem C1_witness :
    envAllOk.renameOk = true ∧
    ((processImage envAllOk "data/uploads/design1.png" (some "data/processed")
        stBase).res =
      { success := true, productId := stBase.nextProductId, error := none } ∧
    (∃ row, getProduct (processImage envAllOk "data/uploads/design1.png"
        (some "data/processed") stBase).state stBase.nextProductId = some row ∧
      row.status = "completed" ∧ row.printify_image_id = some "img_123" ∧
      row.printify_product_id = some "prod_456") ∧
    "data/uploads/design1.png" ∉ (processImage envAllOk
        "data/uploads/design1.png" (some "data/processed")
        stBase).state.fsFiles ∧
    joinPath "data/processed" (basename "data/uploads/design1.png") ∈
      (processImage envAllOk "data/uploads/design1.png"
        (some "data/processed") stBase).state.fsFiles) :=
  ⟨rfl, C1_amended_success_run envAllOk "data/uploads/design1.png"
      "data/processed" stBase 2048 demoAnalysis "img_123" "prod_456"
      rfl rfl rfl rfl rfl (by simp [stBase]) (by decide)⟩

/-- C2: in every run of `processImage`, if the analyzer call fails then
neither the catalog upload nor the draft creation is ever invoked, and if the
upload fails then draft creation is never invoked. -/
theorem C2_short_circuit (env : Env) (filePath : String) (pd : Option String)
    (s : AppState) :
    (∀ m, env.analyzeResult = .error m →
      ExtCall.upload ∉ (processImage env filePath pd s).calls ∧
      ExtCall.createDraft ∉ (processImage env filePath pd s).calls) ∧
    (∀ m, env.uploadResult = .error m →
      ExtCall.createDraft ∉ (processImage env filePath pd s).calls) := by
  rcases env with ⟨rr, ar, ur, dr, ren, rerr⟩
  constructor
  · rintro m rfl
    cases rr <;>
      simp [processImage, failStep, dbInsertProduct, logAction, consoleLine,
        updateAnalysis, updateImageId, updateCompleted, updateError, addFile]
  · rintro m rfl
    cases rr <;> cases ar <;>
      simp [processImage, failStep, dbInsertProduct, logAction, consoleLine,
        updateAnalysis, updateImageId, updateCompleted, updateError, addFile]

/-- C2 (witness): with a failing analyzer, neither upload nor draft creation
appears in the call trace of a concrete run. -/
theorem C2_witness :
    envAnalyzeFail.analyzeResult = .error "rate limited" ∧
    ExtCall.upload ∉ (processImage envAnalyzeFail "data/uploads/design1.png"
      none stBase).calls ∧
    ExtCall.createDraft ∉ (processImage envAnalyzeFail
      "data/uploads/design1.png" none stBase).calls :=
  ⟨rfl,
   ((C2_short_circuit envAnalyzeFail "data/uploads/design1.png" none stBase).1
     "rate limited" rfl).1,
   ((C2_short_circuit envAnalyzeFail "data/uploads/design1.png" none stBase).1
     "rate limited" rfl).2⟩

/-- C3: in every run of `processImage` in which one of the four stages (file
read, analyze, upload, draft creation) fails, the run sets the Item to status
`error` with `error_message` equal to the captured failure message, appends
exactly one log entry with outcome `error` carrying that message and the
Item id, and returns `success = false` with the product id and the message
(the embedding of `processImage` is a total function: the failure is caught,
never rethrown). -/
theorem C3_fail_step (env : Env) (filePath : String) (pd : Option String)
    (s : AppState) (msg : String)
    (hf : firstFailure env = some msg)
    (hfresh : ∀ p ∈ s.products, p.id ≠ s.nextProductId) :
    (processImage env filePath pd s).res =
      { success := false, productId := s.nextProductId, error := some msg } ∧
    (∃ row, getProduct (processImage env filePath pd s).state s.nextProductId
        = some row ∧ row.status = "error" ∧ row.error_message = some msg) ∧
    ((processImage env filePath pd s).state.logs.filter
        (fun l => l.status == "error")).map
        (fun l => (l.product_id, l.action, l.status, l.message)) =
      (s.logs.filter (fun l => l.status == "error")).map
        (fun l => (l.product_id, l.action, l.status, l.message)) ++
        [(some s.nextProductId, "error", "error", msg)] := by
  rcases env with ⟨rr, ar, ur, dr, ren, rerr⟩
  cases rr <;> cases ar <;> cases ur <;> cases dr <;>
    simp only [firstFailure] at hf
  case ok.ok.ok.ok => exact absurd hf (by simp)
  all_goals injection hf with hmsg
  all_goals subst hmsg
  all_goals
    simp only [processImage, failStep, dbInsertProduct, logAction, consoleLine,
      updateAnalysis, updateImageId, updateCompleted, updateError, addFile]
  all_goals refine ⟨trivial, ?_, ?_⟩
  all_goals try (
    simp only [List.map_append]
    repeat rw [map_guarded_eq_self hfresh]
    simp only [List.map_cons, List.map_nil, guarded, eq_self_iff_true, if_true]
    rw [getProduct, find_id_append hfresh rfl]
    exact ⟨_, rfl, rfl, rfl⟩)
  all_goals simp [List.filter_append, List.filter]

/-- C3 (witness): the theorem applied to a concrete run whose analyzer fails
with `rate limited`. -/
theorem C3_witness :
    firstFailure envAnalyzeFail = some "rate limited" ∧
    ((processImage envAnalyzeFail "data/uploads/design1.png" none stBase).res =
      { success := false, productId := stBase.nextProductId,
        error := some "rate limited" } ∧
    (∃ row, getProduct (processImage envAnalyzeFail "data/uploads/design1.png"
        none stBase).state stBase.nextProductId = some row ∧
      row.status = "error" ∧ row.error_message = some "rate limited") ∧
    ((processImage envAnalyzeFail "data/uploads/design1.png" none
        stBase).state.logs.filter (fun l => l.status == "error")).map
        (fun l => (l.product_id, l.action, l.status, l.message)) =
      (stBase.logs.filter (fun l => l.status == "error")).map
        (fun l => (l.product_id, l.action, l.status, l.message)) ++
        [(some stBase.nextProductId, "error", "error", "rate limited")]) :=
  ⟨rfl, C3_fail_step envAnalyzeFail "data/uploads/design1.png" none stBase
      "rate limited" rfl (by simp [stBase])⟩

/-- C4 (counterexample to the claim as stated): a run in which all remote
stages succeed (`firstFailure` is `none`) but the archive rename fails; the
claim says the Item stays `completed` with unchanged error fields, yet the
code sets status `error` with the rename message and returns
`success = false`. -/
theorem C4_counterexample :
    firstFailure envRenameFail = none ∧
    ((processImage envRenameFail "data/uploads/logo.jpg"
        (some "data/processed") stLogo).state.products.map
      (fun p => (p.status, p.error_message))) =
      [("error", some "EXDEV: cross-device link")] ∧
    (processImage envRenameFail "data/uploads/logo.jpg"
        (some "data/processed") stLogo).res.success = false :=
  ⟨rfl, rfl, rfl⟩

/-- C4 (amended): when draft creation has succeeded but the rename into the
archive directory fails, the failure is caught by the same catch handler as a
stage failure: the Item status becomes `error` (overwriting `completed`) with
`error_message` the rename failure message, exactly one error log entry is
appended, the call returns `success = false`, and the file is not moved; the
remote image and listing handles remain populated on the row. -/
theorem C4_amended_rename_failure (env : Env) (filePath dir : String)
    (s : AppState) (n : Nat) (a : Analysis) (img prod : String)
    (hr : env.readResult = .ok n) (ha : env.analyzeResult = .ok a)
    (hu : env.uploadResult = .ok img) (hd : env.draftResult = .ok prod)
    (hren : env.renameOk = false)
    (hfresh : ∀ p ∈ s.products, p.id ≠ s.nextProductId) :
    (processImage env filePath (some dir) s).res =
      { success := false, productId := s.nextProductId,
        error := some env.renameErr } ∧
    (∃ row, getProduct (processImage env filePath (some dir) s).state
        s.nextProductId = some row ∧
      row.status = "error" ∧ row.error_message = some env.renameErr ∧
      row.printify_image_id = some img ∧ row.printify_product_id = some prod) ∧
    ((processImage env filePath (some dir) s).state.logs.filter
        (fun l => l.status == "error")).map
        (fun l => (l.product_id, l.action, l.status, l.message)) =
      (s.logs.filter (fun l => l.status == "error")).map
        (fun l => (l.product_id, l.action, l.status, l.message)) ++
        [(some s.nextProductId, "error", "error", env.renameErr)] ∧
    (processImage env filePath (some dir) s).state.fsFiles = s.fsFiles := by
  simp only [processImage, hr, ha, hu, hd, hren]
  simp only [failStep, dbInsertProduct, logAction, consoleLine, updateAnalysis,
    updateImageId, updateCompleted, updateError, addFile, Bool.false_eq_true,
    if_false]
  refine ⟨trivial, ?_, ?_, trivial⟩
  · simp only [List.map_append]
    repeat rw [map_guarded_eq_self hfresh]
    simp only [List.map_cons, List.map_nil, guarded, eq_self_iff_true, if_true]
    rw [getProduct, find_id_append hfresh rfl]
    exact ⟨_, rfl, rfl, rfl, rfl, rfl⟩
  · simp [List.filter_append, List.filter]

/-- C4 (witness): the amended theorem applied to a concrete run whose rename
throws `EXDEV`. -/
theorem C4_witness :
    envRenameFail.renameOk = false ∧
    ((processImage envRenameFail "data/uploads/logo.jpg"
        (some "data/processed") stLogo).res =
      { success := false, productId := stLogo.nextProductId,
        error := some envRenameFail.renameErr } ∧
    (∃ row, getProduct (processImage envRenameFail "data/uploads/logo.jpg"
        (some "data/processed") stLogo).state stLogo.nextProductId =
        some row ∧
      row.status = "error" ∧ row.error_message = some envRenameFail.renameErr ∧
      row.printify_image_id = some "img_123" ∧
      row.printify_product_id = some "prod_456") ∧
    ((processImage envRenameFail "data/uploads/logo.jpg" (some "data/processed")
        stLogo).state.logs.filter (fun l => l.status == "error")).map
        (fun l => (l.product_id, l.action, l.status, l.message)) =
      (stLogo.logs.filter (fun l => l.status == "error")).map
        (fun l => (l.product_id, l.action, l.status, l.message)) ++
        [(some stLogo.nextProductId, "error", "error",
          envRenameFail.renameErr)] ∧
    (processImage envRenameFail "data/uploads/logo.jpg" (some "data/processed")
      stLogo).state.fsFiles = stLogo.fsFiles) :=
  ⟨rfl, C4_amended_rename_failure envRenameFail "data/uploads/logo.jpg"
      "data/processed" stLogo 2048 demoAnalysis "img_123" "prod_456"
      rfl rfl rfl rfl rfl (by simp [stLogo])⟩

/-- C5 (code bug demonstrated): retrying the completed Item 1 reports
success, but the store afterwards holds TWO rows for the same filename: the
original row is left at status `pending` with its old listing handle (no code
path ever touches it again), and the new run wrote all its results into a
freshly inserted row 2 — the retry does not re-run the pipeline against the
same Item row, contrary to the claim, and the reset of row 1 to `pending`
only makes sense under the claimed behaviour. -/
theorem C5_retry_creates_new_row :
    (retryProduct envAllOk 1 stCompleted).1 = .ok true none ∧
    stCompleted.products.length = 1 ∧
    (retryProduct envAllOk 1 stCompleted).2.products.length = 2 ∧
    ((retryProduct envAllOk 1 stCompleted).2.products.map
      (fun p => (p.id, p.status, p.printify_product_id))) =
      [(1, "pending", some "prod_old"), (2, "completed", some "prod_456")] :=
  ⟨rfl, rfl, rfl, rfl⟩

/-- C6: for every watcher file event, if the stored auto-process flag is not
exactly the string `true`, the handler leaves the state untouched: no Item
row is created, the filename is not claimed into the dedup set, no file is
moved, and no log entry is written. -/
theorem C6_disabled_no_effect (env : Env) (pd filePath : String)
    (s : AppState) (h : getSetting s "auto_process" ≠ some "true") :
    (onAdd env pd filePath s).2.products = s.products ∧
    (onAdd env pd filePath s).2.processedFiles = s.processedFiles ∧
    (onAdd env pd filePath s).2.fsFiles = s.fsFiles ∧
    (onAdd env pd filePath s).2.logs = s.logs := by
  simp only [onAdd]
  split_ifs with h1 h2 h3 <;> try exact ⟨rfl, rfl, rfl, rfl⟩
  exfalso
  apply h
  first
  | simpa using not_not.mp h3
  | simpa using h3

/-- C6 (witness): the theorem applied to a state whose flag is the string
`false`. -/
theorem C6_witness :
    getSetting stDisabled "auto_process" ≠ some "true" ∧
    ((onAdd envAllOk "data/processed" "data/uploads/design1.png"
        stDisabled).2.products = stDisabled.products ∧
     (onAdd envAllOk "data/processed" "data/uploads/design1.png"
        stDisabled).2.processedFiles = stDisabled.processedFiles ∧
     (onAdd envAllOk "data/processed" "data/uploads/design1.png"
        stDisabled).2.fsFiles = stDisabled.fsFiles ∧
     (onAdd envAllOk "data/processed" "data/uploads/design1.png"
        stDisabled).2.logs = stDisabled.logs) :=
  ⟨by decide, C6_disabled_no_effect envAllOk "data/processed"
      "data/uploads/design1.png" stDisabled (by decide)⟩

/-- C7: dedup behaviour of the watcher. First, for an eligible fresh
filename with auto-processing on, the first event triggers a pipeline run and
a second event for the same filename is skipped as a duplicate. Second, a
filename seeded at startup from an Item with status `completed` or
`processing` is refused on its first event. Third, over any sequence of
watcher events, at most one pipeline run ever executes per base filename
within one process lifetime. -/
theorem C7_dedup :
    (∀ (env env2 : Env) (pd pd2 filePath filePath2 : String) (s : AppState),
      toLowerStr (extname filePath) ∈ VALID_EXTENSIONS →
      basename filePath ∉ s.processedFiles →
      getSetting s "auto_process" = some "true" →
      basename filePath2 = basename filePath →
      toLowerStr (extname filePath2) ∈ VALID_EXTENSIONS →
      isProcessedOutcome (onAdd env pd filePath s).1 = true ∧
      (onAdd env2 pd2 filePath2 (onAdd env pd filePath s).2).1 =
        .skippedDup) ∧
    (∀ (env : Env) (pd filePath : String) (s : AppState) (p : ProductRow),
      p ∈ s.products →
      (p.status = "completed" ∨ p.status = "processing") →
      basename filePath = p.filename →
      toLowerStr (extname filePath) ∈ VALID_EXTENSIONS →
      (onAdd env pd filePath (seedProcessedFiles s)).1 = .skippedDup) ∧
    (∀ (env : Env) (pd fn : String) (paths : List String) (s : AppState),
      countRunsFor env pd fn paths s ≤ 1) := by
  refine ⟨?_, ?_, ?_⟩
  · intro env env2 pd pd2 filePath filePath2 s hext hdup hgate heq hext2
    obtain ⟨hrun, hmem⟩ := @onAdd_enabled_run env pd filePath s hext hdup hgate
    exact ⟨hrun, onAdd_skippedDup hext2 (heq ▸ hmem)⟩
  · intro env pd filePath s p hp hst heq hext
    exact onAdd_skippedDup hext (heq ▸ seed_mem hp hst)
  · intro env pd fn paths s
    exact countRunsFor_le_one env pd fn paths s

/-- C7 (witness): the three parts applied to concrete events — a fresh file
processed then skipped, a seeded filename skipped, and a two-event sequence
with at most one run. -/
theorem C7_witness :
    (isProcessedOutcome (onAdd envAllOk "data/processed"
        "data/uploads/design1.png" stBase).1 = true ∧
      (onAdd envAllOk "data/processed" "data/uploads/design1.png"
        (onAdd envAllOk "data/processed" "data/uploads/design1.png"
          stBase).2).1 = .skippedDup) ∧
    (onAdd envAllOk "data/processed" "data/uploads/design1.png"
      (seedProcessedFiles stCompleted)).1 = .skippedDup ∧
    countRunsFor envAllOk "data/processed" "design1.png"
      ["data/uploads/design1.png", "data/uploads/design1.png"] stBase ≤ 1 :=
  ⟨C7_dedup.1 envAllOk envAllOk "data/processed" "data/processed"
      "data/uploads/design1.png" "data/uploads/design1.png" stBase
      (by decide) (by decide) (by decide) rfl (by decide),
   C7_dedup.2.1 envAllOk "data/processed" "data/uploads/design1.png"
      stCompleted
      { id := 1, filename := "design1.png",
        printify_product_id := some "prod_old",
        printify_image_id := some "img_old",
        status := "completed", created_at := 3, updated_at := 5 }
      (by decide) (Or.inl rfl) (by decide) (by decide),
   C7_dedup.2.2 envAllOk "data/processed" "design1.png"
      ["data/uploads/design1.png", "data/uploads/design1.png"] stBase⟩

/-- C8 (counterexample to the claim as stated): a watcher error on a state
with an empty action log leaves the log empty — no process-level log entry
with null item id is appended. -/
theorem C8_counterexample :
    (onWatcherError "ENOSPC: no space left on device" stBase).logs = [] ∧
    stBase.logs = [] :=
  ⟨rfl, rfl⟩

/-- C8 (amended): the watcher error handler only writes the error to the
console; the products, logs, settings, dedup set and files are all unchanged
(in particular, nothing is appended to the Action Log), and the watcher keeps
running: a subsequent file event behaves exactly as it would have without the
error. -/
theorem C8_amended_console_only (msg : String) (s : AppState) (env : Env)
    (pd filePath : String) :
    (onWatcherError msg s).products = s.products ∧
    (onWatcherError msg s).logs = s.logs ∧
    (onWatcherError msg s).settings = s.settings ∧
    (onWatcherError msg s).processedFiles = s.processedFiles ∧
    (onWatcherError msg s).fsFiles = s.fsFiles ∧
    (onWatcherError msg s).console =
      s.console ++ ["Watcher error: " ++ msg] ∧
    (onAdd env pd filePath (onWatcherError msg s)).1 =
      (onAdd env pd filePath s).1 := by
  refine ⟨rfl, rfl, rfl, rfl, rfl, rfl, ?_⟩
  show (onAdd env pd filePath
      { s with console := s.console ++ ["Watcher error: " ++ msg] }).1 =
    (onAdd env pd filePath s).1
  simp only [onAdd]
  have hgs : getSetting
      { s with console := s.console ++ ["Watcher error: " ++ msg] }
      "auto_process" = getSetting s "auto_process" := rfl
  rw [hgs]
  split_ifs with h1 h2 h3 <;> try rfl
  have := processImage_res_console env filePath (some pd)
    (consoleLine ("New image detected: " ++ basename filePath) s)
    ((s.console ++ ["Watcher error: " ++ msg]) ++
      ["New image detected: " ++ basename filePath])
  simp only [consoleLine] at this ⊢
  rw [this]

/-- C9 (counterexample to the claim as stated): a retry on the completed
Item 1, at clock value 20, mutates its status to `pending` but leaves its
`updated_at` at the old value 5 — the retry reset does not refresh the
timestamp. -/
theorem C9_counterexample :
    (stCompleted.products.map (fun p => (p.status, p.updated_at))) =
      [("completed", 5)] ∧
    stCompleted.now = 20 ∧
    ((retryProduct envAllOk 1 stCompleted).2.products.find?
        (fun p => p.id == 1)).map (fun p => (p.status, p.updated_at)) =
      some ("pending", 5) :=
  ⟨rfl, rfl, rfl⟩

/-- C9 (amended): each of the four UPDATE statements issued by
`processImage` (analysis, image id, completion, error) sets `updated_at` of
the matched row to the current timestamp, leaving other rows untouched; the
retry route reset, by contrast, mutates `status` to `pending` but leaves
every `updated_at` unchanged. -/
theorem C9_amended_updated_at :
    (∀ (s : AppState) (pid : Nat) (a : Analysis) (bj tj : String),
      (updateAnalysis pid a bj tj s).products.map
          (fun p => (p.id, p.updated_at)) =
        s.products.map
          (fun p => (p.id, if p.id = pid then s.now else p.updated_at))) ∧
    (∀ (s : AppState) (pid : Nat) (img : String),
      (updateImageId pid img s).products.map
          (fun p => (p.id, p.updated_at)) =
        s.products.map
          (fun p => (p.id, if p.id = pid then s.now else p.updated_at))) ∧
    (∀ (s : AppState) (pid : Nat) (d : String),
      (updateCompleted pid d s).products.map
          (fun p => (p.id, p.updated_at)) =
        s.products.map
          (fun p => (p.id, if p.id = pid then s.now else p.updated_at))) ∧
    (∀ (s : AppState) (pid : Nat) (msg : String),
      (updateError pid msg s).products.map
          (fun p => (p.id, p.updated_at)) =
        s.products.map
          (fun p => (p.id, if p.id = pid then s.now else p.updated_at))) ∧
    (∀ (s : AppState) (pid : Nat),
      (retryResetPending pid s).products.map
          (fun p => (p.id, p.updated_at)) =
        s.products.map (fun p => (p.id, p.updated_at))) ∧
    (∀ (s : AppState) (pid : Nat),
      (retryResetPending pid s).products.map (fun p => (p.id, p.status)) =
        s.products.map
          (fun p => (p.id, if p.id = pid then "pending" else p.status))) := by
  refine ⟨?_, ?_, ?_, ?_, ?_, ?_⟩ <;>
    intro s pid <;>
    [intro a bj tj; intro img; intro d; intro msg; skip; skip] <;>
    (simp only [updateAnalysis, updateImageId, updateCompleted, updateError,
      retryResetPending, List.map_map]
     apply map_ext_on
     intro p _
     by_cases hpid : p.id = pid <;> simp [guarded, hpid])

/-- C10: the auto-process gate is a strict string comparison — for an
eligible, not-yet-claimed file, a pipeline run is triggered if and only if
the stored `auto_process` setting is exactly the string `true`; any other
stored value, and a missing row (`getSetting` returning `none`), disable
processing. -/
theorem C10_strict_gate (env : Env) (pd filePath : String) (s : AppState)
    (hext : VALID_EXTENSIONS.contains (toLowerStr (extname filePath)) = true)
    (hdup : basename filePath ∉ s.processedFiles) :
    (∃ r, (onAdd env pd filePath s).1 = .processed r) ↔
      getSetting s "auto_process" = some "true" := by
  have hext1 : toLowerStr (extname filePath) ∈ VALID_EXTENSIONS := by
    simpa using hext
  by_cases hgate : getSetting s "auto_process" = some "true"
  · have hb : (getSetting s "auto_process" == some "true") = true := by
      simp [hgate]
    simp [onAdd, hext1, hdup, hb, hgate]
  · have hb : (getSetting s "auto_process" == some "true") = false := by
      simp [beq_eq_false_iff_ne, hgate]
    simp [onAdd, hext1, hdup, hb, hgate]

/-- C10 (witness): the gate equivalence at a concrete eligible event on a
state whose flag is `true`. -/
theorem C10_witness :
    VALID_EXTENSIONS.contains (toLowerStr (extname "data/uploads/design1.png"))
      = true ∧
    ((∃ r, (onAdd envAllOk "data/processed" "data/uploads/design1.png"
        stBase).1 = .processed r) ↔
      getSetting stBase "auto_process" = some "true") :=
  ⟨by decide, C10_strict_gate envAllOk "data/processed"
      "data/uploads/design1.png" stBase (by decide) (by decide)⟩
